import Mathlib

/-!
Verification of the fcl narrow-phase collision engine specification against the
repository sources.  The object/AABB/inertia layer is embedded directly from
src/include/fcl/collision_object.h; the closed-form narrow-phase routines,
whose implementation files are not part of this source drop, are modelled from
the specification text (each such definition says so in its doc comment).
The floating-point scalar FCL_REAL (64-bit IEEE 754) is idealised as ℝ.
-/

open Classical

/-- A 3-vector of real scalars, embedding fcl's Vector3d. -/
@[ext]
structure Vec3 where
  x : ℝ
  y : ℝ
  z : ℝ

instance : Add Vec3 := ⟨fun u v => ⟨u.x + v.x, u.y + v.y, u.z + v.z⟩⟩

instance : Sub Vec3 := ⟨fun u v => ⟨u.x - v.x, u.y - v.y, u.z - v.z⟩⟩

instance : Neg Vec3 := ⟨fun v => ⟨-v.x, -v.y, -v.z⟩⟩

instance : SMul ℝ Vec3 := ⟨fun r v => ⟨r * v.x, r * v.y, r * v.z⟩⟩

/-- Vector3d::Zero. -/
def Vec3.zero : Vec3 := ⟨0, 0, 0⟩

/-- Vector3d::Constant. -/
def Vec3.const (r : ℝ) : Vec3 := ⟨r, r, r⟩

/-- Euclidean dot product. -/
def Vec3.dot (u v : Vec3) : ℝ := u.x * v.x + u.y * v.y + u.z * v.z

/-- Euclidean norm. -/
noncomputable def Vec3.norm (v : Vec3) : ℝ := Real.sqrt (v.dot v)

/-- Component access by axis index, as in Eigen's operator[]. -/
def Vec3.nth (v : Vec3) (i : Fin 3) : ℝ :=
  if i.val = 0 then v.x else if i.val = 1 then v.y else v.z

@[simp] lemma Vec3.add_x (u v : Vec3) : (u + v).x = u.x + v.x := rfl

@[simp] lemma Vec3.add_y (u v : Vec3) : (u + v).y = u.y + v.y := rfl

@[simp] lemma Vec3.add_z (u v : Vec3) : (u + v).z = u.z + v.z := rfl

@[simp] lemma Vec3.sub_x (u v : Vec3) : (u - v).x = u.x - v.x := rfl

@[simp] lemma Vec3.sub_y (u v : Vec3) : (u - v).y = u.y - v.y := rfl

@[simp] lemma Vec3.sub_z (u v : Vec3) : (u - v).z = u.z - v.z := rfl

@[simp] lemma Vec3.neg_x (v : Vec3) : (-v).x = -v.x := rfl

@[simp] lemma Vec3.neg_y (v : Vec3) : (-v).y = -v.y := rfl

@[simp] lemma Vec3.neg_z (v : Vec3) : (-v).z = -v.z := rfl

@[simp] lemma Vec3.smul_x (r : ℝ) (v : Vec3) : (r • v).x = r * v.x := rfl

@[simp] lemma Vec3.smul_y (r : ℝ) (v : Vec3) : (r • v).y = r * v.y := rfl

@[simp] lemma Vec3.smul_z (r : ℝ) (v : Vec3) : (r • v).z = r * v.z := rfl

@[simp] lemma Vec3.zero_x : Vec3.zero.x = 0 := rfl

@[simp] lemma Vec3.zero_y : Vec3.zero.y = 0 := rfl

@[simp] lemma Vec3.zero_z : Vec3.zero.z = 0 := rfl

@[simp] lemma Vec3.const_x (r : ℝ) : (Vec3.const r).x = r := rfl

@[simp] lemma Vec3.const_y (r : ℝ) : (Vec3.const r).y = r := rfl

@[simp] lemma Vec3.const_z (r : ℝ) : (Vec3.const r).z = r := rfl

lemma Vec3.add_zero (v : Vec3) : v + Vec3.zero = v := by ext <;> simp

lemma Vec3.smul_zero_vec (r : ℝ) : r • Vec3.zero = Vec3.zero := by ext <;> simp

lemma Vec3.zero_smul_vec (v : Vec3) : (0 : ℝ) • v = Vec3.zero := by ext <;> simp

lemma Vec3.sub_self (v : Vec3) : v - v = Vec3.zero := by ext <;> simp

lemma Vec3.neg_zero_vec : -Vec3.zero = Vec3.zero := by ext <;> simp

lemma Vec3.neg_sub (u v : Vec3) : -(u - v) = v - u := by ext <;> simp

lemma Vec3.smul_neg (r : ℝ) (v : Vec3) : r • (-v) = -(r • v) := by ext <;> simp

lemma Vec3.dot_self_nonneg (v : Vec3) : 0 ≤ v.dot v := by
  unfold Vec3.dot; nlinarith [sq_nonneg v.x, sq_nonneg v.y, sq_nonneg v.z]

lemma Vec3.dot_self_eq_zero_iff (v : Vec3) : v.dot v = 0 ↔ v = Vec3.zero := by
  constructor
  · intro h
    unfold Vec3.dot at h
    have hx : v.x = 0 := by nlinarith [sq_nonneg v.x, sq_nonneg v.y, sq_nonneg v.z]
    have hy : v.y = 0 := by nlinarith [sq_nonneg v.x, sq_nonneg v.y, sq_nonneg v.z]
    have hz : v.z = 0 := by nlinarith [sq_nonneg v.x, sq_nonneg v.y, sq_nonneg v.z]
    ext <;> simp [hx, hy, hz]
  · intro h; subst h; simp [Vec3.dot]

lemma Vec3.norm_nonneg (v : Vec3) : 0 ≤ v.norm := Real.sqrt_nonneg _

lemma Vec3.norm_zero : Vec3.zero.norm = 0 := by
  unfold Vec3.norm; simp [Vec3.dot]

lemma Vec3.norm_eq_zero_iff (v : Vec3) : v.norm = 0 ↔ v = Vec3.zero := by
  unfold Vec3.norm
  rw [Real.sqrt_eq_zero']
  constructor
  · intro h
    exact (Vec3.dot_self_eq_zero_iff v).mp (le_antisymm h (Vec3.dot_self_nonneg v))
  · intro h
    exact le_of_eq ((Vec3.dot_self_eq_zero_iff v).mpr h)

lemma Vec3.dot_neg_neg (v : Vec3) : (-v).dot (-v) = v.dot v := by
  unfold Vec3.dot; simp

lemma Vec3.norm_neg (v : Vec3) : (-v).norm = v.norm := by
  unfold Vec3.norm; rw [Vec3.dot_neg_neg]

lemma Vec3.norm_sub_comm (u v : Vec3) : (u - v).norm = (v - u).norm := by
  rw [← Vec3.neg_sub u v, Vec3.norm_neg]

/-- Norm of an axis-aligned vector, used to evaluate the model at the concrete
scenarios of the test suite. -/
lemma Vec3.norm_axis_x (a : ℝ) (ha : 0 ≤ a) : Vec3.norm ⟨a, 0, 0⟩ = a := by
  unfold Vec3.norm Vec3.dot
  have h : (a * a + 0 * 0 + 0 * 0 : ℝ) = a ^ 2 := by ring
  rw [h, Real.sqrt_sq ha]

/-- A rotation R ∈ SO(3), embedded as the map x ↦ R·x together with the
algebraic properties of rotation matrices that the collision code relies on:
linearity and preservation of the dot product. -/
structure Rot3 where
  app : Vec3 → Vec3
  app_add : ∀ u v : Vec3, app (u + v) = app u + app v
  app_smul : ∀ (r : ℝ) (v : Vec3), app (r • v) = r • app v
  app_dot : ∀ u v : Vec3, (app u).dot (app v) = u.dot v

/-- The identity rotation. -/
def Rot3.id : Rot3 :=
  ⟨fun v => v, fun _ _ => rfl, fun _ _ => rfl, fun _ _ => rfl⟩

/-- Composition of rotations (matrix product). -/
def Rot3.comp (R S : Rot3) : Rot3 where
  app := fun v => R.app (S.app v)
  app_add := fun u v => by
    show R.app (S.app (u + v)) = R.app (S.app u) + R.app (S.app v)
    rw [S.app_add, R.app_add]
  app_smul := fun r v => by
    show R.app (S.app (r • v)) = r • R.app (S.app v)
    rw [S.app_smul, R.app_smul]
  app_dot := fun u v => by
    show (R.app (S.app u)).dot (R.app (S.app v)) = u.dot v
    rw [R.app_dot, S.app_dot]

/-- Eigen's isIdentity() check on the rotation part, idealised to exact
identity. -/
def Rot3.isIdentity (R : Rot3) : Prop := ∀ v : Vec3, R.app v = v

lemma Rot3.id_isIdentity : Rot3.id.isIdentity := fun _ => rfl

lemma Rot3.app_zero (R : Rot3) : R.app Vec3.zero = Vec3.zero := by
  have h := R.app_smul 0 Vec3.zero
  rw [Vec3.zero_smul_vec] at h
  rw [h, Vec3.zero_smul_vec]

lemma Rot3.app_neg (R : Rot3) (v : Vec3) : R.app (-v) = -(R.app v) := by
  have h1 : -v = (-1 : ℝ) • v := by ext <;> simp
  have h2 : -(R.app v) = (-1 : ℝ) • R.app v := by ext <;> simp
  rw [h1, h2, R.app_smul]

lemma Rot3.app_sub (R : Rot3) (u v : Vec3) : R.app (u - v) = R.app u - R.app v := by
  have h1 : u - v = u + -v := by ext <;> simp <;> ring
  have h2 : R.app u - R.app v = R.app u + -(R.app v) := by ext <;> simp <;> ring
  rw [h1, h2, R.app_add, R.app_neg]

lemma Rot3.norm_app (R : Rot3) (v : Vec3) : (R.app v).norm = v.norm := by
  unfold Vec3.norm; rw [R.app_dot]

/-- A rigid transform (rotation, translation), embedding Transform3d; applied
as x ↦ R·x + t. -/
structure Transform3 where
  linear : Rot3
  translation : Vec3

/-- Application of a rigid transform to a point. -/
def Transform3.apply (tf : Transform3) (v : Vec3) : Vec3 :=
  tf.linear.app v + tf.translation

/-- Transform3d::Identity(). -/
def Transform3.identity : Transform3 := ⟨Rot3.id, Vec3.zero⟩

/-- A pure translation, as in Transform3d(Eigen::Translation3d(t)). -/
def Transform3.ofTranslation (t : Vec3) : Transform3 := ⟨Rot3.id, t⟩

/-- Composition T * U of rigid transforms. -/
def Transform3.comp (T U : Transform3) : Transform3 :=
  ⟨T.linear.comp U.linear, T.linear.app U.translation + T.translation⟩

@[simp] lemma Transform3.identity_translation : Transform3.identity.translation = Vec3.zero := rfl

@[simp] lemma Transform3.ofTranslation_translation (t : Vec3) :
    (Transform3.ofTranslation t).translation = t := rfl

@[simp] lemma Transform3.comp_translation (T U : Transform3) :
    (T.comp U).translation = T.linear.app U.translation + T.translation := rfl

@[simp] lemma Transform3.comp_linear (T U : Transform3) :
    (T.comp U).linear = T.linear.comp U.linear := rfl

/-- An axis-aligned bounding box, embedding fcl's AABB. -/
structure AABB where
  min_ : Vec3
  max_ : Vec3

/-- fcl's translate(aabb, t): shift both corners. -/
def AABB.translate (b : AABB) (t : Vec3) : AABB := ⟨b.min_ + t, b.max_ + t⟩

/-- A 3×3 real matrix, embedding Matrix3d by entries. -/
structure Matrix3 where
  m00 : ℝ
  m01 : ℝ
  m02 : ℝ
  m10 : ℝ
  m11 : ℝ
  m12 : ℝ
  m20 : ℝ
  m21 : ℝ
  m22 : ℝ

/-- Entry access m(i, j). -/
def Matrix3.entry (m : Matrix3) (i j : Fin 3) : ℝ :=
  if i.val = 0 then (if j.val = 0 then m.m00 else if j.val = 1 then m.m01 else m.m02)
  else if i.val = 1 then (if j.val = 0 then m.m10 else if j.val = 1 then m.m11 else m.m12)
  else (if j.val = 0 then m.m20 else if j.val = 1 then m.m21 else m.m22)

/-- Embedding of the CollisionGeometry interface of
src/include/fcl/collision_object.h: the local-frame AABB data consumed by
CollisionObject::computeAABB (aabb_center, aabb_radius, aabb_local) and the
virtual mass-property interface (computeCOM, computeMomentofInertia,
computeVolume) represented as record fields holding the values the virtual
calls return. -/
structure CollisionGeometry where
  aabb_center : Vec3
  aabb_radius : ℝ
  aabb_local : AABB
  computeCOM : Vec3
  computeMomentofInertia : Matrix3
  computeVolume : ℝ

/-- CollisionGeometry::computeMomentofInertiaRelatedToCOM, entry for entry from
src/include/fcl/collision_object.h lines 130-148. -/
def CollisionGeometry.computeMomentofInertiaRelatedToCOM (g : CollisionGeometry) : Matrix3 :=
  let C := g.computeMomentofInertia
  let com := g.computeCOM
  let V := g.computeVolume
  { m00 := C.m00 - V * (com.y * com.y + com.z * com.z)
    m01 := C.m01 + V * com.x * com.y
    m02 := C.m02 + V * com.x * com.z
    m10 := C.m10 + V * com.y * com.x
    m11 := C.m11 - V * (com.x * com.x + com.z * com.z)
    m12 := C.m12 + V * com.y * com.z
    m20 := C.m20 + V * com.z * com.x
    m21 := C.m21 + V * com.z * com.y
    m22 := C.m22 - V * (com.x * com.x + com.y * com.y) }

/-- Embedding of the mutable state of CollisionObject: the geometry (held by
pointer, so shared and unchanged by transform mutators), the transform t, the
cached world-frame AABB, and the user data pointer (abstracted by a type
parameter). -/
structure CollisionObject (U : Type) where
  cgeom : CollisionGeometry
  t : Transform3
  aabb : AABB
  user_data : U

/-- CollisionObject::getAABB(): return the cached world AABB. -/
def CollisionObject.getAABB {U : Type} (o : CollisionObject U) : AABB := o.aabb

/-- CollisionObject::computeAABB() from src/include/fcl/collision_object.h
lines 205-218: when the rotation part is the identity, translate the local
AABB; otherwise take the box of half-width aabb_radius around the transformed
local AABB center. -/
noncomputable def CollisionObject.computeAABB {U : Type} (o : CollisionObject U) :
    CollisionObject U :=
  if o.t.linear.isIdentity then
    { o with aabb := o.cgeom.aabb_local.translate o.t.translation }
  else
    { o with aabb := { min_ := o.t.apply o.cgeom.aabb_center - Vec3.const o.cgeom.aabb_radius
                       max_ := o.t.apply o.cgeom.aabb_center + Vec3.const o.cgeom.aabb_radius } }

/-- CollisionObject::setTranslation. -/
def CollisionObject.setTranslation {U : Type} (o : CollisionObject U) (T : Vec3) :
    CollisionObject U :=
  { o with t := { o.t with translation := T } }

/-- CollisionObject::setRotation. -/
def CollisionObject.setRotation {U : Type} (o : CollisionObject U) (R : Rot3) :
    CollisionObject U :=
  { o with t := { o.t with linear := R } }

/-- A quaternion, abstracted to the rotation matrix its toRotationMatrix()
conversion produces (the only use collision_object.h makes of it). -/
structure Quaternion3 where
  toRotationMatrix : Rot3

/-- CollisionObject::setQuatRotation. -/
def CollisionObject.setQuatRotation {U : Type} (o : CollisionObject U) (q : Quaternion3) :
    CollisionObject U :=
  { o with t := { o.t with linear := q.toRotationMatrix } }

/-- CollisionObject::setTransform(R, T): setRotation then setTranslation. -/
def CollisionObject.setTransformRT {U : Type} (o : CollisionObject U) (R : Rot3) (T : Vec3) :
    CollisionObject U :=
  (o.setRotation R).setTranslation T

/-- CollisionObject::setTransform(q, T): setQuatRotation then setTranslation. -/
def CollisionObject.setTransformQT {U : Type} (o : CollisionObject U) (q : Quaternion3) (T : Vec3) :
    CollisionObject U :=
  (o.setQuatRotation q).setTranslation T

/-- CollisionObject::setTransform(tf): overwrite the whole transform. -/
def CollisionObject.setTransform {U : Type} (o : CollisionObject U) (tf : Transform3) :
    CollisionObject U :=
  { o with t := tf }

lemma sum_erase_fin3 (f : Fin 3 → ℝ) (i : Fin 3) :
    ∑ k ∈ Finset.univ.erase i, f k = f 0 + f 1 + f 2 - f i := by
  rw [Finset.sum_erase_eq_sub (Finset.mem_univ i), Fin.sum_univ_three]

/-- Concrete geometry used to instantiate the AABB theorems. -/
def demoGeometry : CollisionGeometry :=
  { aabb_center := ⟨1, 2, 3⟩
    aabb_radius := 4
    aabb_local := ⟨⟨-1, -2, -3⟩, ⟨3, 6, 9⟩⟩
    computeCOM := Vec3.zero
    computeMomentofInertia := ⟨0, 0, 0, 0, 0, 0, 0, 0, 0⟩
    computeVolume := 0 }

/-- Rotation by 90 degrees around the z axis, a concrete non-identity element
of SO(3). -/
def rotZ90 : Rot3 where
  app := fun v => ⟨-v.y, v.x, v.z⟩
  app_add := fun u v => by ext <;> simp <;> ring
  app_smul := fun r v => by ext <;> simp <;> ring
  app_dot := fun u v => by unfold Vec3.dot; simp; ring

lemma rotZ90_not_identity : ¬ rotZ90.isIdentity := by
  intro h
  have h1 := h ⟨1, 0, 0⟩
  have h2 : (-(0 : ℝ) : ℝ) = 1 := congrArg Vec3.x h1
  norm_num at h2

/-- Concrete object with the identity transform. -/
def demoObjectId : CollisionObject Unit :=
  { cgeom := demoGeometry, t := Transform3.identity, aabb := ⟨Vec3.zero, Vec3.zero⟩,
    user_data := () }

/-- Concrete object with a rotated transform. -/
def demoObjectRot : CollisionObject Unit :=
  { cgeom := demoGeometry, t := ⟨rotZ90, ⟨10, 0, 0⟩⟩, aabb := ⟨Vec3.zero, Vec3.zero⟩,
    user_data := () }

/-- Claim C8: CollisionObject::computeAABB() sets the world AABB to the local
AABB translated by the object's translation when the rotation part of the
transform is the identity, and otherwise to the axis-aligned cube centered at
the transformed local AABB center whose half-width in each axis is the local
AABB radius (the box enclosing the local bounding sphere). -/
theorem computeAABB_world {U : Type} (o : CollisionObject U) :
    (o.t.linear.isIdentity →
        o.computeAABB.getAABB = o.cgeom.aabb_local.translate o.t.translation) ∧
    (¬ o.t.linear.isIdentity →
        o.computeAABB.getAABB =
          { min_ := o.t.apply o.cgeom.aabb_center - Vec3.const o.cgeom.aabb_radius
            max_ := o.t.apply o.cgeom.aabb_center + Vec3.const o.cgeom.aabb_radius }) := by
  constructor
  · intro h
    unfold CollisionObject.computeAABB CollisionObject.getAABB
    rw [if_pos h]
  · intro h
    unfold CollisionObject.computeAABB CollisionObject.getAABB
    rw [if_neg h]

/-- Witness for C8: both branches evaluated on concrete objects. -/
theorem computeAABB_world_witness :
    demoObjectId.computeAABB.getAABB = demoGeometry.aabb_local.translate Vec3.zero ∧
    demoObjectRot.computeAABB.getAABB =
      { min_ := (⟨-2, 1, 3⟩ : Vec3) + (⟨10, 0, 0⟩ : Vec3) - Vec3.const 4
        max_ := (⟨-2, 1, 3⟩ : Vec3) + (⟨10, 0, 0⟩ : Vec3) + Vec3.const 4 } := by
  constructor
  · exact (computeAABB_world demoObjectId).1 Rot3.id_isIdentity
  · have h := (computeAABB_world demoObjectRot).2 rotZ90_not_identity
    rw [h]
    rfl

/-- Claim C9: the transform mutators of CollisionObject (setTranslation,
setRotation, setQuatRotation and the three setTransform overloads) change only
the stored transform: the cached world AABB returned by getAABB(), the
geometry, and the user data are unchanged, so getAABB() keeps returning the
pre-mutation box until computeAABB() is called. -/
theorem mutators_change_only_transform {U : Type} (o : CollisionObject U)
    (R : Rot3) (T : Vec3) (q : Quaternion3) (tf : Transform3) :
    ((o.setTranslation T).getAABB = o.getAABB ∧ (o.setTranslation T).cgeom = o.cgeom ∧
      (o.setTranslation T).user_data = o.user_data ∧
      (o.setTranslation T).t = { o.t with translation := T }) ∧
    ((o.setRotation R).getAABB = o.getAABB ∧ (o.setRotation R).cgeom = o.cgeom ∧
      (o.setRotation R).user_data = o.user_data ∧
      (o.setRotation R).t = { o.t with linear := R }) ∧
    ((o.setQuatRotation q).getAABB = o.getAABB ∧ (o.setQuatRotation q).cgeom = o.cgeom ∧
      (o.setQuatRotation q).user_data = o.user_data ∧
      (o.setQuatRotation q).t = { o.t with linear := q.toRotationMatrix }) ∧
    ((o.setTransformRT R T).getAABB = o.getAABB ∧ (o.setTransformRT R T).cgeom = o.cgeom ∧
      (o.setTransformRT R T).user_data = o.user_data ∧
      (o.setTransformRT R T).t = ⟨R, T⟩) ∧
    ((o.setTransformQT q T).getAABB = o.getAABB ∧ (o.setTransformQT q T).cgeom = o.cgeom ∧
      (o.setTransformQT q T).user_data = o.user_data ∧
      (o.setTransformQT q T).t = ⟨q.toRotationMatrix, T⟩) ∧
    ((o.setTransform tf).getAABB = o.getAABB ∧ (o.setTransform tf).cgeom = o.cgeom ∧
      (o.setTransform tf).user_data = o.user_data ∧ (o.setTransform tf).t = tf) :=
  ⟨⟨rfl, rfl, rfl, rfl⟩, ⟨rfl, rfl, rfl, rfl⟩, ⟨rfl, rfl, rfl, rfl⟩,
    ⟨rfl, rfl, rfl, rfl⟩, ⟨rfl, rfl, rfl, rfl⟩, ⟨rfl, rfl, rfl, rfl⟩⟩

/-- Claim C10: computeMomentofInertiaRelatedToCOM equals computeMomentofInertia
corrected by the parallel-axis formula with computeVolume as the mass: each
diagonal entry (i, i) subtracts V·(com_j² + com_k²) over the other two axes
j, k, and each off-diagonal entry (i, j) adds V·com_i·com_j. -/
theorem momentOfInertiaRelatedToCOM_parallel_axis (g : CollisionGeometry) (i j : Fin 3) :
    g.computeMomentofInertiaRelatedToCOM.entry i j =
      if i = j then
        g.computeMomentofInertia.entry i j -
          g.computeVolume * ∑ k ∈ Finset.univ.erase i, g.computeCOM.nth k ^ 2
      else
        g.computeMomentofInertia.entry i j +
          g.computeVolume * g.computeCOM.nth i * g.computeCOM.nth j := by
  fin_cases i <;> fin_cases j <;>
    simp only [sum_erase_fin3, CollisionGeometry.computeMomentofInertiaRelatedToCOM,
      Matrix3.entry, Vec3.nth] <;>
    norm_num [Fin.ext_iff]
  all_goals
    first
    | exact Or.inl (by ring)
    | ring

/-- Modelled from the spec: the shape catalog (§3) restricted to the variants
whose closed-form narrow-phase routines are modelled below.  The narrow-phase
implementation files (geometric shape classes and the GJKSolver shape pair
routines) are not part of this source drop; only collision_object.h and the
test suite are.  A Halfspace carries a unit normal n and offset d with
n·x ≤ d inside. -/
inductive Shape where
  | sphere (radius : ℝ)
  | halfspace (n : Vec3) (d : ℝ)

/-- A contact point as produced by the narrow phase: world position, normal
pointing from object 1 into object 2, and penetration depth. -/
structure ContactPoint where
  normal : Vec3
  pos : Vec3
  penetration_depth : ℝ

/-- Modelled from the spec: the closed-form sphere–sphere collision routine of
§4.E, absent from src/.  Collision iff ‖c₁−c₂‖ ≤ r₁+r₂; the normal is
(c₂−c₁)/‖·‖, the zero vector when the centers coincide; the position is the
midpoint weighted by radii; the depth is (r₁+r₂) − ‖c₁−c₂‖. -/
noncomputable def sphereSphereIntersect (r1 : ℝ) (tf1 : Transform3) (r2 : ℝ)
    (tf2 : Transform3) : Option ContactPoint :=
  let diff := tf2.translation - tf1.translation
  let len := diff.norm
  if len ≤ r1 + r2 then
    some { normal := if 0 < len then (1 / len) • diff else Vec3.zero
           pos := tf1.translation + (r1 / (r1 + r2)) • diff
           penetration_depth := r1 + r2 - len }
  else
    none

/-- Modelled from the spec: transforming a halfspace (n, d) by a rigid
transform (R, t) gives the world halfspace (R·n, d + (R·n)·t), per §3's
shape-variant semantics under the transform x ↦ R·x + t. -/
noncomputable def halfspaceTransform (n : Vec3) (d : ℝ) (tf : Transform3) : Vec3 × ℝ :=
  let nw := tf.linear.app n
  (nw, d + nw.dot tf.translation)

/-- Modelled from the spec: the closed-form sphere–halfspace collision routine
of §4.E (shape–halfspace row), absent from src/.  The signed distance of the
sphere center to the world plane determines the depth r − (n·c − d); the
normal is taken from the halfspace, pointing from the sphere into it; the
contact point is the midpoint between the deepest sphere point and its
projection onto the plane, c − (r − depth/2)·n. -/
noncomputable def sphereHalfspaceIntersect (r : ℝ) (tf1 : Transform3) (n : Vec3) (d : ℝ)
    (tf2 : Transform3) : Option ContactPoint :=
  let nw := (halfspaceTransform n d tf2).1
  let dw := (halfspaceTransform n d tf2).2
  let center := tf1.translation
  let depth := r - (nw.dot center - dw)
  if 0 ≤ depth then
    some { normal := -nw
           pos := center - (r - depth / 2) • nw
           penetration_depth := depth }
  else
    none

/-- Modelled from the spec: the natural-order dispatch table of §4.F for the
modelled catalog.  The sphere rows have closed-form entries; pairs without an
entry return none (unsupported in this order). -/
noncomputable def collideImpl : Shape → Transform3 → Shape → Transform3 →
    Option (Option ContactPoint)
  | Shape.sphere r1, tf1, Shape.sphere r2, tf2 =>
      some (sphereSphereIntersect r1 tf1 r2 tf2)
  | Shape.sphere r, tf1, Shape.halfspace n d, tf2 =>
      some (sphereHalfspaceIntersect r tf1 n d tf2)
  | _, _, _, _ => none

/-- The post-processing the dispatcher applies when it answers a query from
the reverse-order routine: negate the contact normal (position and depth are
unchanged). -/
def flipContact (c : ContactPoint) : ContactPoint :=
  { c with normal := -c.normal }

/-- Modelled from the spec: the dispatch layer of §4.F, absent from src/.
A pair supported in its natural order is answered directly; a pair supported
only in the reverse order is answered by the reverse-order routine with the
normal negated; a pair supported in neither order is surfaced as unsupported
(none). -/
noncomputable def collide (s1 : Shape) (tf1 : Transform3) (s2 : Shape) (tf2 : Transform3) :
    Option (Option ContactPoint) :=
  match collideImpl s1 tf1 s2 tf2 with
  | some res => some res
  | none => (collideImpl s2 tf2 s1 tf1).map (Option.map flipContact)

/-- The result of a shapeDistance query: the success flag returned by the
solver, the scalar distance written through the out-parameter, and the two
witness points in world coordinates. -/
structure DistanceResult where
  success : Bool
  dist : ℝ
  p1 : Vec3
  p2 : Vec3

/-- Modelled from the spec: the closed-form sphere–sphere distance routine,
absent from src/.  On separation (‖c₁−c₂‖ > r₁+r₂) it succeeds with the gap
‖c₁−c₂‖ − (r₁+r₂) and surface witness points on the center line; otherwise it
fails and returns a negative scalar (§3, §6: a negative value means the solver
could only prove overlap; the sentinel −1 matches the tests, which assert only
dist < 0). -/
noncomputable def sphereSphereDistance (r1 : ℝ) (tf1 : Transform3) (r2 : ℝ)
    (tf2 : Transform3) : DistanceResult :=
  let o1 := tf1.translation
  let o2 := tf2.translation
  let diff := o1 - o2
  let len := diff.norm
  if r1 + r2 < len then
    { success := true
      dist := len - (r1 + r2)
      p1 := o1 - (r1 / len) • diff
      p2 := o2 + (r2 / len) • diff }
  else
    { success := false, dist := -1, p1 := o1, p2 := o2 }

/-- Modelled from the spec: the natural-order distance dispatch table for the
modelled catalog; only the sphere–sphere pair has a closed-form distance
entry. -/
noncomputable def distanceImpl : Shape → Transform3 → Shape → Transform3 →
    Option DistanceResult
  | Shape.sphere r1, tf1, Shape.sphere r2, tf2 =>
      some (sphereSphereDistance r1 tf1 r2 tf2)
  | _, _, _, _ => none

/-- The post-processing the dispatcher applies to a reverse-order distance
answer: swap the witness points (the scalar is unchanged). -/
def swapWitnessPoints (res : DistanceResult) : DistanceResult :=
  { res with p1 := res.p2, p2 := res.p1 }

/-- Modelled from the spec: the distance entry point of §6, dispatching like
collide and swapping witness points for reverse-order answers. -/
noncomputable def distance (s1 : Shape) (tf1 : Transform3) (s2 : Shape) (tf2 : Transform3) :
    Option DistanceResult :=
  match distanceImpl s1 tf1 s2 tf2 with
  | some res => some res
  | none => (distanceImpl s2 tf2 s1 tf1).map swapWitnessPoints

lemma Vec3.sub_zero_vec (v : Vec3) : v - Vec3.zero = v := by ext <;> simp

lemma collide_sphere_sphere_eq (r1 r2 : ℝ) (tf1 tf2 : Transform3) :
    collide (Shape.sphere r1) tf1 (Shape.sphere r2) tf2 =
      some (sphereSphereIntersect r1 tf1 r2 tf2) := rfl

lemma collide_sphere_halfspace_eq (r : ℝ) (n : Vec3) (d : ℝ) (tf1 tf2 : Transform3) :
    collide (Shape.sphere r) tf1 (Shape.halfspace n d) tf2 =
      some (sphereHalfspaceIntersect r tf1 n d tf2) := rfl

lemma collide_halfspace_sphere_eq (r : ℝ) (n : Vec3) (d : ℝ) (tf1 tf2 : Transform3) :
    collide (Shape.halfspace n d) tf1 (Shape.sphere r) tf2 =
      some ((sphereHalfspaceIntersect r tf2 n d tf1).map flipContact) := rfl

lemma collide_halfspace_halfspace_eq (n1 : Vec3) (d1 : ℝ) (n2 : Vec3) (d2 : ℝ)
    (tf1 tf2 : Transform3) :
    collide (Shape.halfspace n1 d1) tf1 (Shape.halfspace n2 d2) tf2 = none := rfl

lemma distance_sphere_sphere_eq (r1 r2 : ℝ) (tf1 tf2 : Transform3) :
    distance (Shape.sphere r1) tf1 (Shape.sphere r2) tf2 =
      some (sphereSphereDistance r1 tf1 r2 tf2) := rfl

lemma distance_sphere_halfspace_eq (r : ℝ) (n : Vec3) (d : ℝ) (tf1 tf2 : Transform3) :
    distance (Shape.sphere r) tf1 (Shape.halfspace n d) tf2 = none := rfl

lemma distance_halfspace_sphere_eq (r : ℝ) (n : Vec3) (d : ℝ) (tf1 tf2 : Transform3) :
    distance (Shape.halfspace n d) tf1 (Shape.sphere r) tf2 = none := rfl

lemma distance_halfspace_halfspace_eq (n1 : Vec3) (d1 : ℝ) (n2 : Vec3) (d2 : ℝ)
    (tf1 tf2 : Transform3) :
    distance (Shape.halfspace n1 d1) tf1 (Shape.halfspace n2 d2) tf2 = none := rfl

/-- Claim C2: for Sphere(20) at the identity versus Sphere(10) translated by
(29.9, 0, 0), collide reports a collision with exactly one contact of depth
0.1, normal (1, 0, 0), and position x-coordinate 20 − 0.1·20/(20+10), the
midpoint weighted by radii (the model yields these values exactly, hence
within any tolerance). -/
theorem sphereSphere_penetration_scenario :
    collide (Shape.sphere 20) Transform3.identity (Shape.sphere 10)
        (Transform3.ofTranslation ⟨29.9, 0, 0⟩) =
      some (some { normal := ⟨1, 0, 0⟩, pos := ⟨20 - 0.1 * 20 / (20 + 10), 0, 0⟩,
                   penetration_depth := 0.1 }) := by
  rw [collide_sphere_sphere_eq]
  simp only [sphereSphereIntersect, Transform3.ofTranslation_translation,
    Transform3.identity_translation, Vec3.sub_zero_vec]
  rw [Vec3.norm_axis_x 29.9 (by norm_num)]
  rw [if_pos (by norm_num : (29.9 : ℝ) ≤ 20 + 10)]
  rw [if_pos (by norm_num : (0 : ℝ) < 29.9)]
  simp only [Option.some.injEq, ContactPoint.mk.injEq]
  refine ⟨?_, ?_, ?_⟩
  · ext <;> simp <;> norm_num
  · ext <;> simp <;> norm_num
  · norm_num

/-- Claim C3: for concentric spheres (equal world centers) collide reports a
collision whose normal is the zero vector (no direction is invented), whose
depth is the maximal value r₁ + r₂, and whose position is the common
center. -/
theorem sphereSphere_concentric (r1 r2 : ℝ) (tf1 tf2 : Transform3)
    (h1 : 0 ≤ r1) (h2 : 0 ≤ r2) (hc : tf1.translation = tf2.translation) :
    collide (Shape.sphere r1) tf1 (Shape.sphere r2) tf2 =
      some (some { normal := Vec3.zero, pos := tf1.translation,
                   penetration_depth := r1 + r2 }) := by
  rw [collide_sphere_sphere_eq]
  simp only [sphereSphereIntersect]
  rw [← hc, Vec3.sub_self, Vec3.norm_zero]
  rw [if_pos (by linarith : (0 : ℝ) ≤ r1 + r2)]
  rw [if_neg (by norm_num : ¬ (0 : ℝ) < 0)]
  simp only [Option.some.injEq, ContactPoint.mk.injEq]
  refine ⟨trivial, ?_, by ring⟩
  rw [Vec3.smul_zero_vec, Vec3.add_zero]

/-- Witness for C3: concentric Sphere(20) and Sphere(10) at the identity. -/
theorem sphereSphere_concentric_witness :
    collide (Shape.sphere 20) Transform3.identity (Shape.sphere 10) Transform3.identity =
      some (some { normal := Vec3.zero, pos := Vec3.zero, penetration_depth := 30 }) := by
  have h := sphereSphere_concentric 20 10 Transform3.identity Transform3.identity
    (by norm_num) (by norm_num) rfl
  rw [h]
  simp only [Transform3.identity_translation, Option.some.injEq, ContactPoint.mk.injEq]
  refine ⟨trivial, trivial, by norm_num⟩

lemma Vec3.neg_neg_vec (v : Vec3) : -(-v) = v := by ext <;> simp

lemma Vec3.sub_eq_zero_iff (u v : Vec3) : u - v = Vec3.zero ↔ u = v := by
  constructor
  · intro h
    have hx := congrArg Vec3.x h
    have hy := congrArg Vec3.y h
    have hz := congrArg Vec3.z h
    simp at hx hy hz
    ext <;> linarith
  · intro h
    rw [h]
    exact Vec3.sub_self v

lemma flipContact_flipContact (c : ContactPoint) : flipContact (flipContact c) = c := by
  cases c
  simp [flipContact, Vec3.neg_neg_vec]

lemma option_map_flip_flip (o : Option ContactPoint) :
    (o.map flipContact).map flipContact = o := by
  cases o
  · rfl
  · simp [flipContact_flipContact]

lemma sphereSphereIntersect_swap (r1 r2 : ℝ) (tf1 tf2 : Transform3) :
    sphereSphereIntersect r1 tf1 r2 tf2 =
      Option.map flipContact (sphereSphereIntersect r2 tf2 r1 tf1) := by
  simp only [sphereSphereIntersect]
  rw [Vec3.norm_sub_comm tf1.translation tf2.translation]
  by_cases h : (tf2.translation - tf1.translation).norm ≤ r1 + r2
  · rw [if_pos h,
      if_pos (show (tf2.translation - tf1.translation).norm ≤ r2 + r1 from by linarith)]
    simp only [Option.map_some', flipContact]
    simp only [Option.some.injEq, ContactPoint.mk.injEq]
    have hnn : (0 : ℝ) ≤ (tf2.translation - tf1.translation).norm := Vec3.norm_nonneg _
    refine ⟨?_, ?_, by ring⟩
    · by_cases hl : 0 < (tf2.translation - tf1.translation).norm
      · rw [if_pos hl, if_pos hl]
        ext <;> simp <;> ring
      · rw [if_neg hl, if_neg hl]
        ext <;> simp
    · rcases eq_or_lt_of_le (le_trans hnn h) with hs | hs
      · have hlen0 : (tf2.translation - tf1.translation).norm = 0 := by
          apply le_antisymm _ hnn
          rw [← hs] at h
          exact h
        have hdiff : tf2.translation - tf1.translation = Vec3.zero :=
          (Vec3.norm_eq_zero_iff _).mp hlen0
        have heq : tf2.translation = tf1.translation := (Vec3.sub_eq_zero_iff _ _).mp hdiff
        have hdiff2 : tf1.translation - tf2.translation = Vec3.zero := by
          rw [heq]
          exact Vec3.sub_self _
        rw [hdiff, hdiff2, Vec3.smul_zero_vec, Vec3.smul_zero_vec, Vec3.add_zero,
          Vec3.add_zero, heq]
      · have ha : r1 + r2 ≠ 0 := ne_of_gt hs
        have hb : r2 + r1 ≠ 0 := by rw [add_comm]; exact ha
        ext <;> simp <;> field_simp <;> ring
  · rw [if_neg h,
      if_neg (show ¬ (tf2.translation - tf1.translation).norm ≤ r2 + r1 from by
        intro hc; exact h (by linarith))]
    rfl

lemma sphereSphereDistance_swap (r1 r2 : ℝ) (tf1 tf2 : Transform3) :
    sphereSphereDistance r1 tf1 r2 tf2 =
      swapWitnessPoints (sphereSphereDistance r2 tf2 r1 tf1) := by
  simp only [sphereSphereDistance]
  rw [Vec3.norm_sub_comm tf2.translation tf1.translation]
  by_cases h : r1 + r2 < (tf1.translation - tf2.translation).norm
  · rw [if_pos h,
      if_pos (show r2 + r1 < (tf1.translation - tf2.translation).norm from by linarith)]
    simp only [swapWitnessPoints, DistanceResult.mk.injEq]
    refine ⟨by trivial, by ring, ?_, ?_⟩
    · ext <;> simp <;> ring
    · ext <;> simp <;> ring
  · rw [if_neg h,
      if_neg (show ¬ r2 + r1 < (tf1.translation - tf2.translation).norm from by
        intro hc; exact h (by linarith))]
    rfl

/-- Claim C1: operand-swap symmetry of the dispatch layer.  For every modelled
shape pair and transforms, collide with swapped operands returns the same
(option-level) outcome with each contact normal negated and position and depth
unchanged, and distance with swapped operands returns the same success flag
and scalar with the witness points swapped. -/
theorem collide_operand_swap (s1 s2 : Shape) (tf1 tf2 : Transform3) :
    collide s1 tf1 s2 tf2 = (collide s2 tf2 s1 tf1).map (Option.map flipContact) ∧
    distance s1 tf1 s2 tf2 = (distance s2 tf2 s1 tf1).map swapWitnessPoints := by
  constructor
  · cases s1 with
    | sphere r1 =>
        cases s2 with
        | sphere r2 =>
            rw [collide_sphere_sphere_eq, collide_sphere_sphere_eq,
              sphereSphereIntersect_swap r1 r2 tf1 tf2]
            rfl
        | halfspace n d =>
            rw [collide_sphere_halfspace_eq, collide_halfspace_sphere_eq]
            show some (sphereHalfspaceIntersect r1 tf1 n d tf2) =
              some (((sphereHalfspaceIntersect r1 tf1 n d tf2).map flipContact).map flipContact)
            rw [option_map_flip_flip]
    | halfspace n d =>
        cases s2 with
        | sphere r2 => rfl
        | halfspace n2 d2 => rfl
  · cases s1 with
    | sphere r1 =>
        cases s2 with
        | sphere r2 =>
            rw [distance_sphere_sphere_eq, distance_sphere_sphere_eq,
              sphereSphereDistance_swap r1 r2 tf1 tf2]
            rfl
        | halfspace n d => rfl
    | halfspace n d =>
        cases s2 with
        | sphere r2 => rfl
        | halfspace n2 d2 => rfl

@[simp] lemma Rot3.comp_app (R S : Rot3) (v : Vec3) : (R.comp S).app v = R.app (S.app v) := rfl

lemma Vec3.dot_add_right (u v w : Vec3) : u.dot (v + w) = u.dot v + u.dot w := by
  unfold Vec3.dot; simp; ring

/-- How a contact transforms under an extra rigid motion T applied to both
inputs: the normal by T's rotation, the position by T, the depth unchanged. -/
def transformContact (T : Transform3) (c : ContactPoint) : ContactPoint :=
  { normal := T.linear.app c.normal
    pos := T.apply c.pos
    penetration_depth := c.penetration_depth }

lemma sphereSphereIntersect_rigid (T : Transform3) (r1 r2 : ℝ) (tf1 tf2 : Transform3) :
    sphereSphereIntersect r1 (T.comp tf1) r2 (T.comp tf2) =
      Option.map (transformContact T) (sphereSphereIntersect r1 tf1 r2 tf2) := by
  simp only [sphereSphereIntersect, Transform3.comp_translation]
  have hdiff : (T.linear.app tf2.translation + T.translation)
      - (T.linear.app tf1.translation + T.translation)
      = T.linear.app (tf2.translation - tf1.translation) := by
    rw [Rot3.app_sub]
    ext <;> simp
  rw [hdiff, Rot3.norm_app]
  by_cases h : (tf2.translation - tf1.translation).norm ≤ r1 + r2
  · rw [if_pos h, if_pos h]
    simp only [Option.map_some', transformContact, Transform3.apply]
    simp only [Option.some.injEq, ContactPoint.mk.injEq]
    refine ⟨?_, ?_, by trivial⟩
    · by_cases hl : 0 < (tf2.translation - tf1.translation).norm
      · rw [if_pos hl, if_pos hl, Rot3.app_smul]
      · rw [if_neg hl, if_neg hl, Rot3.app_zero]
    · rw [Rot3.app_add, Rot3.app_smul]
      ext <;> simp <;> ring
  · rw [if_neg h, if_neg h]
    rfl

lemma sphereHalfspaceIntersect_rigid (T : Transform3) (r : ℝ) (n : Vec3) (d : ℝ)
    (tf1 tf2 : Transform3) :
    sphereHalfspaceIntersect r (T.comp tf1) n d (T.comp tf2) =
      Option.map (transformContact T) (sphereHalfspaceIntersect r tf1 n d tf2) := by
  simp only [sphereHalfspaceIntersect, halfspaceTransform, Transform3.comp_translation,
    Transform3.comp_linear, Rot3.comp_app]
  have hdot : ∀ u w : Vec3,
      (T.linear.app u).dot (T.linear.app w + T.translation)
        = u.dot w + (T.linear.app u).dot T.translation := by
    intro u w
    rw [Vec3.dot_add_right, T.linear.app_dot]
  have hdepth :
      r - ((T.linear.app (tf2.linear.app n)).dot (T.linear.app tf1.translation + T.translation)
        - (d + (T.linear.app (tf2.linear.app n)).dot (T.linear.app tf2.translation + T.translation)))
      = r - ((tf2.linear.app n).dot tf1.translation
        - (d + (tf2.linear.app n).dot tf2.translation)) := by
    rw [hdot, hdot]
    ring
  rw [hdepth]
  by_cases h : 0 ≤ r - ((tf2.linear.app n).dot tf1.translation
      - (d + (tf2.linear.app n).dot tf2.translation))
  · rw [if_pos h, if_pos h]
    simp only [Option.map_some', transformContact, Transform3.apply]
    simp only [Option.some.injEq, ContactPoint.mk.injEq]
    refine ⟨by rw [Rot3.app_neg], ?_, by trivial⟩
    rw [Rot3.app_sub, Rot3.app_smul]
    ext <;> simp <;> ring
  · rw [if_neg h, if_neg h]
    rfl

lemma transformContact_flipContact (T : Transform3) (c : ContactPoint) :
    transformContact T (flipContact c) = flipContact (transformContact T c) := by
  cases c
  simp [transformContact, flipContact, Rot3.app_neg]

lemma option_map_transform_flip (T : Transform3) (o : Option ContactPoint) :
    Option.map (transformContact T) (o.map flipContact)
      = (o.map (transformContact T)).map flipContact := by
  cases o
  · rfl
  · simp [transformContact_flipContact]

/-- Claim C6: rigid invariance.  Applying an extra rigid transform T to both
inputs leaves the collide outcome structure (hence the boolean) unchanged,
rotates each contact normal by T's rotation, transforms each contact position
by T, and keeps the depth. -/
theorem collide_rigid_invariance (s1 s2 : Shape) (tf1 tf2 T : Transform3) :
    collide s1 (T.comp tf1) s2 (T.comp tf2) =
      (collide s1 tf1 s2 tf2).map (Option.map (transformContact T)) := by
  cases s1 with
  | sphere r1 =>
      cases s2 with
      | sphere r2 =>
          rw [collide_sphere_sphere_eq, collide_sphere_sphere_eq,
            sphereSphereIntersect_rigid]
          rfl
      | halfspace n d =>
          rw [collide_sphere_halfspace_eq, collide_sphere_halfspace_eq,
            sphereHalfspaceIntersect_rigid]
          rfl
  | halfspace n d =>
      cases s2 with
      | sphere r2 =>
          rw [collide_halfspace_sphere_eq, collide_halfspace_sphere_eq,
            sphereHalfspaceIntersect_rigid]
          show some (((sphereHalfspaceIntersect r2 tf2 n d tf1).map
                (transformContact T)).map flipContact)
            = some (((sphereHalfspaceIntersect r2 tf2 n d tf1).map flipContact).map
                (transformContact T))
          rw [option_map_transform_flip]
      | halfspace n2 d2 => rfl

lemma sphereSphereDistance_overlap_eval :
    distance (Shape.sphere 20) Transform3.identity (Shape.sphere 10)
        (Transform3.ofTranslation ⟨29.9, 0, 0⟩)
      = some { success := false, dist := -1, p1 := Vec3.zero, p2 := ⟨29.9, 0, 0⟩ } := by
  rw [distance_sphere_sphere_eq]
  simp only [sphereSphereDistance, Transform3.identity_translation,
    Transform3.ofTranslation_translation]
  rw [show (Vec3.zero - (⟨29.9, 0, 0⟩ : Vec3)) = -(⟨29.9, 0, 0⟩ : Vec3) from by ext <;> simp,
    Vec3.norm_neg, Vec3.norm_axis_x 29.9 (by norm_num)]
  rw [if_neg (by norm_num : ¬ (20 : ℝ) + 10 < 29.9)]

lemma collide_overlap_exists :
    ∃ c, collide (Shape.sphere 20) Transform3.identity (Shape.sphere 10)
        (Transform3.ofTranslation ⟨29.9, 0, 0⟩) = some (some c) := by
  rw [collide_sphere_sphere_eq]
  simp only [sphereSphereIntersect, Transform3.ofTranslation_translation,
    Transform3.identity_translation, Vec3.sub_zero_vec]
  rw [Vec3.norm_axis_x 29.9 (by norm_num)]
  rw [if_pos (by norm_num : (29.9 : ℝ) ≤ 20 + 10)]
  exact ⟨_, rfl⟩

/-- Claim C4: a defined distance query succeeds exactly when its scalar is a
non-negative separation, and on overlap (collide reports a contact) it fails
and returns a negative scalar — overlap is never reported as distance 0 with
success. -/
theorem distance_success_iff_nonneg (s1 s2 : Shape) (tf1 tf2 : Transform3)
    (res : DistanceResult) (hres : distance s1 tf1 s2 tf2 = some res) :
    (res.success = true ↔ 0 ≤ res.dist) ∧
    ((∃ c, collide s1 tf1 s2 tf2 = some (some c)) →
      res.success = false ∧ res.dist < 0) := by
  cases s1 with
  | sphere r1 =>
      cases s2 with
      | sphere r2 =>
          rw [distance_sphere_sphere_eq, Option.some.injEq] at hres
          subst hres
          by_cases h : r1 + r2 < (tf1.translation - tf2.translation).norm
          · constructor
            · simp only [sphereSphereDistance]
              rw [if_pos h]
              exact ⟨fun _ => by linarith, fun _ => rfl⟩
            · rintro ⟨c, hc⟩
              exfalso
              rw [collide_sphere_sphere_eq, Option.some.injEq] at hc
              simp only [sphereSphereIntersect] at hc
              rw [if_neg (show ¬ (tf2.translation - tf1.translation).norm ≤ r1 + r2 from by
                rw [Vec3.norm_sub_comm]
                intro hcon
                linarith)] at hc
              exact Option.noConfusion hc
          · constructor
            · simp only [sphereSphereDistance]
              rw [if_neg h]
              norm_num
            · intro _
              simp only [sphereSphereDistance]
              rw [if_neg h]
              exact ⟨rfl, by norm_num⟩
      | halfspace n d =>
          rw [distance_sphere_halfspace_eq] at hres
          exact Option.noConfusion hres
  | halfspace n d =>
      cases s2 with
      | sphere r2 =>
          rw [distance_halfspace_sphere_eq] at hres
          exact Option.noConfusion hres
      | halfspace n2 d2 =>
          rw [distance_halfspace_halfspace_eq] at hres
          exact Option.noConfusion hres

/-- Witness for C4: the overlapping configuration of the repository's distance
test (Sphere(20) at the identity, Sphere(10) at (29.9, 0, 0)): the query fails
with a negative scalar. -/
theorem distance_success_iff_nonneg_witness :
    ∃ res, distance (Shape.sphere 20) Transform3.identity (Shape.sphere 10)
        (Transform3.ofTranslation ⟨29.9, 0, 0⟩) = some res ∧
      res.success = false ∧ res.dist < 0 := by
  refine ⟨_, sphereSphereDistance_overlap_eval, ?_⟩
  have h := distance_success_iff_nonneg (Shape.sphere 20) (Shape.sphere 10)
    Transform3.identity (Transform3.ofTranslation ⟨29.9, 0, 0⟩) _
    sphereSphereDistance_overlap_eval
  exact h.2 collide_overlap_exists

/-- Counterexample for claim C5 as stated: at the overlapping configuration of
the repository's own distance test (Sphere(20) at the identity versus
Sphere(10) at (29.9, 0, 0), where the test asserts dist < 0), the distance
query returns a negative scalar, not max(0, ‖t₁−t₂‖ − r₁ − r₂) = 0. -/
theorem sphereDistance_overlap_not_max0 :
    (distance (Shape.sphere 20) Transform3.identity (Shape.sphere 10)
        (Transform3.ofTranslation ⟨29.9, 0, 0⟩)).map DistanceResult.dist
      ≠ some (max 0 ((Transform3.identity.translation
          - (Transform3.ofTranslation ⟨29.9, 0, 0⟩).translation).norm - 20 - 10)) := by
  rw [sphereSphereDistance_overlap_eval]
  simp only [Transform3.identity_translation, Transform3.ofTranslation_translation]
  rw [show (Vec3.zero - (⟨29.9, 0, 0⟩ : Vec3)) = -(⟨29.9, 0, 0⟩ : Vec3) from by ext <;> simp,
    Vec3.norm_neg, Vec3.norm_axis_x 29.9 (by norm_num)]
  rw [max_eq_left (by norm_num : (29.9 : ℝ) - 20 - 10 ≤ 0)]
  simp only [Option.map_some', Option.some.injEq]
  norm_num

/-- Claim C5 amended: sphere–sphere distance exactness holds in the separated
case: when ‖t₁−t₂‖ > r₁ + r₂ the query succeeds and returns exactly
‖t₁−t₂‖ − r₁ − r₂, which then equals max(0, ‖t₁−t₂‖ − r₁ − r₂); when the
spheres overlap (‖t₁−t₂‖ ≤ r₁ + r₂) the query fails and returns a negative
scalar, not 0. -/
theorem sphereDistance_exact_separated (r1 r2 : ℝ) (tf1 tf2 : Transform3) :
    ∃ res, distance (Shape.sphere r1) tf1 (Shape.sphere r2) tf2 = some res ∧
      (r1 + r2 < (tf1.translation - tf2.translation).norm →
        res.success = true ∧
        res.dist = max 0 ((tf1.translation - tf2.translation).norm - r1 - r2)) ∧
      ((tf1.translation - tf2.translation).norm ≤ r1 + r2 →
        res.success = false ∧ res.dist < 0) := by
  refine ⟨_, distance_sphere_sphere_eq r1 r2 tf1 tf2, ?_, ?_⟩
  · intro h
    simp only [sphereSphereDistance]
    rw [if_pos h]
    refine ⟨rfl, ?_⟩
    rw [max_eq_right (by linarith : (0 : ℝ) ≤ (tf1.translation - tf2.translation).norm - r1 - r2)]
    ring
  · intro h
    simp only [sphereSphereDistance]
    rw [if_neg (not_lt.mpr h)]
    exact ⟨rfl, by norm_num⟩

/-- Witness for the amended C5: evaluated at a separated configuration
(centers 40 apart, distance 10) and at the overlapping test configuration
(centers 29.9 apart, negative scalar). -/
theorem sphereDistance_exact_separated_witness :
    (∃ res, distance (Shape.sphere 20) Transform3.identity (Shape.sphere 10)
        (Transform3.ofTranslation ⟨40, 0, 0⟩) = some res ∧
      res.success = true ∧ res.dist = 10) ∧
    (∃ res, distance (Shape.sphere 20) Transform3.identity (Shape.sphere 10)
        (Transform3.ofTranslation ⟨29.9, 0, 0⟩) = some res ∧
      res.success = false ∧ res.dist < 0) := by
  constructor
  · obtain ⟨res, hres, hsep, hov⟩ := sphereDistance_exact_separated 20 10
      Transform3.identity (Transform3.ofTranslation ⟨40, 0, 0⟩)
    have hn : (Transform3.identity.translation
        - (Transform3.ofTranslation ⟨40, 0, 0⟩).translation).norm = 40 := by
      simp only [Transform3.identity_translation, Transform3.ofTranslation_translation]
      rw [show (Vec3.zero - (⟨40, 0, 0⟩ : Vec3)) = -(⟨40, 0, 0⟩ : Vec3) from by ext <;> simp,
        Vec3.norm_neg, Vec3.norm_axis_x 40 (by norm_num)]
    obtain ⟨hsucc, hdist⟩ := hsep (by rw [hn]; norm_num)
    refine ⟨res, hres, hsucc, ?_⟩
    rw [hdist, hn, max_eq_right (by norm_num : (0 : ℝ) ≤ 40 - 20 - 10)]
    norm_num
  · obtain ⟨res, hres, hsep, hov⟩ := sphereDistance_exact_separated 20 10
      Transform3.identity (Transform3.ofTranslation ⟨29.9, 0, 0⟩)
    have hn : (Transform3.identity.translation
        - (Transform3.ofTranslation ⟨29.9, 0, 0⟩).translation).norm = 29.9 := by
      simp only [Transform3.identity_translation, Transform3.ofTranslation_translation]
      rw [show (Vec3.zero - (⟨29.9, 0, 0⟩ : Vec3)) = -(⟨29.9, 0, 0⟩ : Vec3) from by ext <;> simp,
        Vec3.norm_neg, Vec3.norm_axis_x 29.9 (by norm_num)]
    obtain ⟨hsucc, hdist⟩ := hov (by rw [hn]; norm_num)
    exact ⟨res, hres, hsucc, hdist⟩

/-- Modelled from the spec: the warm-start related fields of the collision
request (§3, §4.H): the enable flag and the cached GJK guess direction
preserved across calls by the caller. -/
structure CollisionRequest where
  enable_cached_gjk_guess : Bool
  cached_gjk_guess : Vec3

/-- Modelled from the spec: the collision result as seen by the caller of the
warm-start loop — the boolean is_collision, the contact, and the cached guess
written back into the result (§5: the core reads the input hint and writes a
fresh hint into the result). -/
structure CollisionResult where
  is_collision : Bool
  contact : Option ContactPoint
  cached_gjk_guess : Vec3

/-- Modelled from the spec: collide with a request (§4.F, §4.H), for the
modelled closed-form catalog.  The dispatch table routes the sphere rows to
the closed-form routines of §4.E, which take no warm-start input (§4.H: the
request's guess is propagated only to the GJK backend, which is absent from
src/ and outside the modelled table); the result's cached guess field is the
hint carried through for the caller. -/
noncomputable def collideRequest (s1 : Shape) (tf1 : Transform3) (s2 : Shape)
    (tf2 : Transform3) (req : CollisionRequest) : Option CollisionResult :=
  (collide s1 tf1 s2 tf2).map fun res =>
    { is_collision := res.isSome
      contact := res
      cached_gjk_guess := req.cached_gjk_guess }

/-- Modelled from the spec: the warm-start call sequence of the gjkcache test:
a sequence of collide calls on one shape pair, where with warm = true each
call's resulting cached guess is fed into the next call's request, and with
warm = false every call keeps the initial guess.  Produces the boolean
is_collision outcome of every step (none for an unsupported pair). -/
noncomputable def runCollideSequence (s1 s2 : Shape) (warm : Bool) :
    Vec3 → List (Transform3 × Transform3) → List (Option Bool)
  | _, [] => []
  | guess, (tf1, tf2) :: rest =>
      match collideRequest s1 tf1 s2 tf2
          { enable_cached_gjk_guess := warm, cached_gjk_guess := guess } with
      | none => none :: runCollideSequence s1 s2 warm guess rest
      | some res =>
          some res.is_collision ::
            runCollideSequence s1 s2 warm
              (if warm then res.cached_gjk_guess else guess) rest

/-- Claim C7: warm-start equivalence.  For any call sequence on a shape pair,
running with enable_cached_gjk_guess = true (threading each result's cached
guess into the next request) produces exactly the same boolean is_collision
outcome at every step as running with enable_cached_gjk_guess = false. -/
theorem warm_start_equivalence (s1 s2 : Shape) (guess : Vec3)
    (tfs : List (Transform3 × Transform3)) :
    runCollideSequence s1 s2 true guess tfs = runCollideSequence s1 s2 false guess tfs := by
  induction tfs generalizing guess with
  | nil => rfl
  | cons head rest ih =>
      obtain ⟨tf1, tf2⟩ := head
      simp only [runCollideSequence, collideRequest]
      cases hc : collide s1 tf1 s2 tf2 with
      | none => simp only [Option.map_none']; rw [ih]
      | some res => simp only [Option.map_some', ite_self]; rw [ih]
